import Mathlib

/-!
Room selection, reservation submission and availability toggling.

A shallow embedding of the three browser scripts

* `show_available_units_edit.js` (date fields, availability request, room buttons,
  `selectedRooms`, hidden `#selected-rooms` field),
* `show_reservation_info.js` (the `selected_rooms` entry of the submitted payload),
* `toggle_availability.js` (rewriting of the status cell),

as pure functions on an explicit page state, followed by the properties proved of them.

Modelling conventions.

* Unit ids are the server's integer keys.  A button stores the id whose decimal text is its
  `data-room-id` attribute; jQuery `.data('room-id')` reads it back as a number, the DOM
  `dataset.roomId` reads it back as the attribute text.
* The JSON object `rooms` of a response is the list of its members in the order of the
  response text; `parseObject` gives the properties of the parsed object and `eachOrder` the
  order in which `Object.keys` and `$.each` visit them.  Server strings are plain text.
* JSON arrays are kept as abstract syntax (`List JVal`) rather than as text.
* An event that is not enabled (a response with no request outstanding, a click where there
  is no room button) leaves the page unchanged.
-/

namespace RoomSelection

/-- JSON scalars occurring in the serialised selections. -/
inductive JVal
  | num (n : Nat)
  | str (s : String)
  deriving DecidableEq, Repr

/-- One unit of an availability response: `{id, name, floor, view}`. -/
structure Room where
  id : Nat
  name : String
  floor : String
  view : String
  deriving DecidableEq, Repr

/-- The body of an availability response: `rooms` may be missing, otherwise it is the list of
the members `unitType: units` of the JSON object, in the order of the response text. -/
structure Response where
  rooms : Option (List (String × List Room))
  deriving DecidableEq, Repr

/-- A room button: the id in `data-room-id`, its text and its class list. -/
structure Button where
  roomId : Nat
  label : String
  classes : List String
  deriving DecidableEq, Repr

/-- A child of `#available-rooms`: a `div.room-section` (its `h4` text and the buttons of its
`div.available-rooms-container`) or a `p.text-danger` notice. -/
inductive Node
  | roomSection (heading : String) (container : List Button)
  | notice (text : String)
  deriving DecidableEq, Repr

/-- The `data` object of an availability request. -/
structure Request where
  check_in : String
  check_out : String
  reservation_id : String
  deriving DecidableEq, Repr

/-- The state of the reservation edit page that the scripts read and write. -/
structure Page where
  reservation_id : String
  checkIn : String
  checkInMin : String
  checkOut : String
  checkOutMin : String
  selectedRooms : List Nat
  hidden : Option (List JVal)
  availableRooms : List Node
  requests : List Request
  pending : Nat
  deriving DecidableEq, Repr

/-- The page after the `ready` callback has run (lines 3-20): both minimum bounds are today,
the selection is empty, the hidden field has not been written yet. -/
def pageLoad (today reservation_id checkIn checkOut : String) : Page :=
  { reservation_id := reservation_id
    checkIn := checkIn
    checkInMin := today
    checkOut := checkOut
    checkOutMin := today
    selectedRooms := []
    hidden := none
    availableRooms := []
    requests := []
    pending := 0 }

/-- jQuery `removeClass`. -/
def removeClass (c : String) (classes : List String) : List String :=
  classes.filter (fun k => k != c)

/-- jQuery `addClass`. -/
def addClass (c : String) (classes : List String) : List String :=
  if classes.contains c then classes else classes ++ [c]

/-- The function `updateSelectedRoomsInput` (lines 84-86). -/
def updateSelectedRoomsInput (s : Page) : Page :=
  { s with hidden := some (s.selectedRooms.map JVal.num) }

/-- The direct `change` handler of `#check-in` (lines 14-18). -/
def onCheckInChange (s : Page) : Page :=
  let checkInDate := s.checkIn
  { s with checkOut := "", checkOutMin := checkInDate }

/-- The delegated `change` handler of `#check-in, #check-out` up to the point where the
request has been sent (lines 22-33 and 63-65). -/
def onDateChange (s : Page) : Page :=
  let checkInDate := s.checkIn
  let checkOutDate := s.checkOut
  if checkInDate ≠ "" ∧ checkOutDate ≠ "" then
    { s with
      requests := s.requests ++
        [{ check_in := checkInDate, check_out := checkOutDate,
           reservation_id := s.reservation_id }]
      pending := s.pending + 1 }
  else s

/-- A `change` event on `#check-in` with new value `d`: the handler bound to the element runs
first, the delegated handler on the document second. -/
def changeCheckIn (d : String) (s : Page) : Page :=
  onDateChange (onCheckInChange { s with checkIn := d })

/-- A `change` event on `#check-out` with new value `d`: only the delegated handler runs. -/
def changeCheckOut (d : String) (s : Page) : Page :=
  onDateChange { s with checkOut := d }

/-- The button built for one unit (lines 47-48). -/
def mkButton (room : Room) : Button :=
  { roomId := room.id
    label := " وحدة رقم " ++ room.name ++ " | الدور " ++ room.floor ++ " | " ++ room.view
    classes := ["btn", "btn-primary", "available-room-btn"] }

/-- The section built for one unit type: the body of the `$.each` callback (lines 42-52). -/
def mkSection (unitType : String) (units : List Room) : Node :=
  Node.roomSection unitType (units.foldl (fun container room => container ++ [mkButton room]) [])

/-- The notice shown when nothing is available (line 56). -/
def noRoomsNotice : Node := Node.notice "لا توجد غرف متاحة."

/-- The notice shown when the request failed (line 61). -/
def errorNotice : Node := Node.notice "حدث خطأ أثناء جلب الغرف المتاحة."

/-- The value of a string of decimal digits. -/
def digitsValue (cs : List Char) : Nat :=
  cs.foldl (fun n ch => 10 * n + (ch.toNat - 48)) 0

/-- The array index a property key stands for, when it is one: the key is the canonical
decimal text of an integer below 2^32 - 1. -/
def arrayIndex (key : String) : Option Nat :=
  if key.data ≠ [] ∧ key.data.all Char.isDigit = true ∧
      toString (digitsValue key.data) = key ∧ digitsValue key.data < 4294967295 then
    some (digitsValue key.data)
  else none

/-- The step of `JSON.parse` that reads one member into the object built so far: a new key is
added last, a repeated key keeps its place and takes the new value. -/
def defineMember (obj : List (String × List Room)) (member : String × List Room) :
    List (String × List Room) :=
  if obj.any (fun e => e.1 == member.1) then
    obj.map (fun e => if e.1 == member.1 then member else e)
  else obj ++ [member]

/-- The properties of the parsed `rooms` object, in creation order (the response is parsed
before the callback runs, `dataType: 'json'`). -/
def parseObject (members : List (String × List Room)) : List (String × List Room) :=
  members.foldl defineMember []

/-- Ascending order of array-index keys. -/
def indexLe (a b : String × List Room) : Prop :=
  (arrayIndex a.1).getD 0 ≤ (arrayIndex b.1).getD 0

instance : DecidableRel indexLe := fun a b =>
  inferInstanceAs (Decidable ((arrayIndex a.1).getD 0 ≤ (arrayIndex b.1).getD 0))

/-- The order in which `Object.keys` and the `for-in` loop of `$.each` visit the properties of
an object: the array-index keys first, ascending, then the other keys in creation order. -/
def eachOrder (obj : List (String × List Room)) : List (String × List Room) :=
  (obj.filter (fun e => (arrayIndex e.1).isSome)).insertionSort indexLe ++
    obj.filter (fun e => !(arrayIndex e.1).isSome)

/-- `Object.keys`. -/
def objectKeys (obj : List (String × List Room)) : List String :=
  (eachOrder obj).map Prod.fst

/-- The `success` callback of the availability request (lines 34-58). -/
def onSuccess (response : Response) (s : Page) : Page :=
  let s1 := { s with availableRooms := [] }
  let s2 := { s1 with selectedRooms := [] }
  let s3 := updateSelectedRoomsInput s2
  match response.rooms.map parseObject with
  | some rooms =>
    if (objectKeys rooms).length > 0 then
      (eachOrder rooms).foldl
        (fun p entry => { p with availableRooms := p.availableRooms ++ [mkSection entry.1 entry.2] })
        s3
    else { s3 with availableRooms := s3.availableRooms ++ [noRoomsNotice] }
  | none => { s3 with availableRooms := s3.availableRooms ++ [noRoomsNotice] }

/-- The `error` callback of the availability request (lines 59-62). -/
def onError (s : Page) : Page :=
  { s with availableRooms := [errorNotice] }

/-- The selection update of the click handler (lines 71-77, the `selectedRooms` half). -/
def toggle (selectedRooms : List Nat) (roomId : Nat) : List Nat :=
  if selectedRooms.contains roomId then selectedRooms.filter (fun id => id != roomId)
  else selectedRooms ++ [roomId]

/-- The class update of the click handler (lines 71-77, the `$(this)` half). -/
def restyle (selectedRooms : List Nat) (this : Button) : Button :=
  if selectedRooms.contains this.roomId then
    { this with classes := addClass "btn-primary" (removeClass "btn-success" this.classes) }
  else
    { this with classes := addClass "btn-success" (removeClass "btn-primary" this.classes) }

/-- The button `j` of the container of child `i` of `#available-rooms`, when there is one. -/
def buttonAt (nodes : List Node) (i j : Nat) : Option Button :=
  match nodes[i]? with
  | some (Node.roomSection _ container) => container[j]?
  | _ => none

/-- Replace the button `j` of the container of child `i`. -/
def setButton (nodes : List Node) (i j : Nat) (b : Button) : List Node :=
  match nodes[i]? with
  | some (Node.roomSection heading container) =>
    nodes.set i (Node.roomSection heading (container.set j b))
  | _ => nodes

/-- The delegated click handler of `.available-room-btn` (lines 68-81), for a click on the
button `j` of child `i`. -/
def clickButton (i j : Nat) (s : Page) : Page :=
  match buttonAt s.availableRooms i j with
  | some this =>
    if this.classes.contains "available-room-btn" then
      let roomId := this.roomId
      updateSelectedRoomsInput
        { s with
          selectedRooms := toggle s.selectedRooms roomId
          availableRooms := setButton s.availableRooms i j (restyle s.selectedRooms this) }
    else s
  | none => s

/-- What happens on the page. -/
inductive Event
  | changeCheckIn (d : String)
  | changeCheckOut (d : String)
  | ajaxSuccess (response : Response)
  | ajaxError
  | click (i j : Nat)
  deriving DecidableEq, Repr

/-- One event.  A response is delivered only while a request is outstanding. -/
def step (s : Page) : Event → Page
  | Event.changeCheckIn d => changeCheckIn d s
  | Event.changeCheckOut d => changeCheckOut d s
  | Event.ajaxSuccess response =>
    if s.pending = 0 then s else onSuccess response { s with pending := s.pending - 1 }
  | Event.ajaxError =>
    if s.pending = 0 then s else onError { s with pending := s.pending - 1 }
  | Event.click i j => clickButton i j s

/-- A sequence of events, oldest first. -/
def run (events : List Event) (s : Page) : Page :=
  events.foldl step s

/-- All room buttons in document order. -/
def allButtons : List Node → List Button
  | [] => []
  | Node.roomSection _ container :: rest => container ++ allButtons rest
  | Node.notice _ :: rest => allButtons rest

/-- The selector `.available-room-btn.btn-success`. -/
def isSelected (b : Button) : Bool :=
  b.classes.contains "available-room-btn" && b.classes.contains "btn-success"

/-- The array that the submit handler of `show_reservation_info.js` serialises into
`selected_rooms` (line 10): `dataset.roomId` of every visibly selected button. -/
def submitSelectedRooms (s : Page) : List JVal :=
  ((allButtons s.availableRooms).filter isSelected).map (fun btn => JVal.str (toString btn.roomId))

/-- The ids of the visibly selected buttons, in document order. -/
def visiblySelected (s : Page) : List Nat :=
  ((allButtons s.availableRooms).filter isSelected).map (fun btn => btn.roomId)

end RoomSelection

namespace ToggleAvailability

/-- The button of a status cell: class list, text, `data-id`, and whether the click handler
is attached to it. -/
structure ToggleButton where
  classes : List String
  label : String
  dataId : String
  listener : Bool
  deriving DecidableEq, Repr

/-- How the toggle request ends: the promise chain rejects (transport error, body that is not
JSON), or a JSON body `{status, is_available}` arrives. -/
inductive FetchResult
  | rejected
  | json (status : String) (is_available : Option Bool)
  deriving DecidableEq, Repr

/-- JavaScript truthiness of `data.is_available`. -/
def truthy : Option Bool → Bool
  | some b => b
  | none => false

/-- The click handler of `.toggle-availability` (lines 3-37) on the button `this` of a status
cell, run to the end of its promise chain; the result is the content of the cell. -/
def onClick (this : ToggleButton) (result : FetchResult) : ToggleButton :=
  let soldierId := this.dataId
  match result with
  | FetchResult.rejected => this
  | FetchResult.json status is_available =>
    if status = "success" then
      let newState := truthy is_available
      { classes := ["toggle-availability", "btn", if newState then "btn-danger" else "btn-primary"]
        label := if newState then "إلغاء الإتاحة" else "إتاحة"
        dataId := soldierId
        listener := true }
    else this

/-- The request failed: the chain rejected, or the body's status is not `"success"`. -/
def failed : FetchResult → Prop
  | FetchResult.rejected => True
  | FetchResult.json status _ => status ≠ "success"

end ToggleAvailability

namespace RoomSelection

/-! ## Concrete pages used in the examples -/

/-- A response with two units of one type. -/
def twoRooms : Response :=
  { rooms := some [("Suite", [⟨1, "101", "1", "sea"⟩, ⟨2, "102", "1", "garden"⟩])] }

/-- Both dates chosen, two rooms rendered, room 2 clicked and then room 1. -/
def pageTwoSelected : Page :=
  run [Event.changeCheckIn "2026-01-01", Event.changeCheckOut "2026-01-05",
       Event.ajaxSuccess twoRooms, Event.click 0 1, Event.click 0 0]
    (pageLoad "2025-12-31" "7" "" "")

/-- Both dates chosen, one room rendered and selected. -/
def pageOneSelected : Page :=
  run [Event.changeCheckIn "2026-01-01", Event.changeCheckOut "2026-01-05",
       Event.ajaxSuccess { rooms := some [("Suite", [⟨1, "101", "1", "sea"⟩])] },
       Event.click 0 0]
    (pageLoad "2025-12-31" "7" "" "")

/-- The response of the specification's rendering example. -/
def suiteStandard : Response :=
  { rooms := some [("Suite", [⟨1, "101", "1", "sea"⟩]), ("Standard", [⟨2, "202", "2", "garden"⟩])] }

/-- A response whose unit types are the integer-like names 2 and 1, in that order. -/
def twoThenOne : Response :=
  { rooms := some [("2", [⟨2, "201", "2", "sea"⟩]), ("1", [⟨1, "101", "1", "garden"⟩])] }

/-- A response whose only unit type has no units. -/
def emptySuite : Response :=
  { rooms := some [("Suite", [])] }

/-- All units of a list of properties, in order. -/
def allUnits : List (String × List Room) → List Room
  | [] => []
  | entry :: rest => entry.2 ++ allUnits rest

/-- The units of the parsed `rooms` object of a response, in the order they are visited. -/
def renderedUnits (response : Response) : List Room :=
  match response.rooms with
  | some members => allUnits (eachOrder (parseObject members))
  | none => []

/-- The unit ids of a response are pairwise distinct. -/
def distinctIds (response : Response) : Prop :=
  ((renderedUnits response).map Room.id).Nodup

instance (response : Response) : Decidable (distinctIds response) :=
  inferInstanceAs (Decidable ((renderedUnits response).map Room.id).Nodup)

/-- The events of a run without failed requests and without repeated unit ids. -/
def regular : Event → Prop
  | Event.ajaxError => False
  | Event.ajaxSuccess response => distinctIds response
  | _ => True

instance (e : Event) : Decidable (regular e) := by
  cases e <;> unfold regular <;> infer_instance

/-- The selection, the hidden field and the styles of the rendered buttons agree. -/
structure Consistent (s : Page) : Prop where
  ids_nodup : ((allButtons s.availableRooms).map Button.roomId).Nodup
  has_class : ∀ b ∈ allButtons s.availableRooms, "available-room-btn" ∈ b.classes
  success_iff : ∀ b ∈ allButtons s.availableRooms,
    "btn-success" ∈ b.classes ↔ b.roomId ∈ s.selectedRooms
  sel_rendered : ∀ x ∈ s.selectedRooms, ∃ b ∈ allButtons s.availableRooms, b.roomId = x
  sel_nodup : s.selectedRooms.Nodup
  hidden_eq : s.hidden = some (s.selectedRooms.map JVal.num) ∨
    (s.hidden = none ∧ s.selectedRooms = [])

/-- The content of the rooms area after the success callback, in closed form (shown equal to
what `onSuccess` builds in `onSuccess_eq`). -/
def rendered (response : Response) : List Node :=
  match response.rooms with
  | some members =>
    if 0 < (eachOrder (parseObject members)).length then
      (eachOrder (parseObject members)).map (fun e => Node.roomSection e.1 (e.2.map mkButton))
    else [noRoomsNotice]
  | none => [noRoomsNotice]

/-! ## Rendering lemmas -/

theorem foldl_snoc_map {α β : Type} (f : α → β) (l : List α) (acc : List β) :
    l.foldl (fun c a => c ++ [f a]) acc = acc ++ l.map f := by
  induction l generalizing acc with
  | nil => simp
  | cons a l ih => simp [ih]

theorem mkSection_eq (unitType : String) (units : List Room) :
    mkSection unitType units = Node.roomSection unitType (units.map mkButton) := by
  simp [mkSection, foldl_snoc_map]

theorem foldl_sections (rooms : List (String × List Room)) (s : Page) :
    rooms.foldl
        (fun p entry => { p with availableRooms := p.availableRooms ++ [mkSection entry.1 entry.2] })
        s
      = { s with availableRooms :=
            s.availableRooms ++ rooms.map (fun e => Node.roomSection e.1 (e.2.map mkButton)) } := by
  induction rooms generalizing s with
  | nil => simp
  | cons e rooms ih =>
    rw [List.foldl_cons, ih]
    simp [mkSection_eq]

theorem onSuccess_eq (response : Response) (s : Page) :
    onSuccess response s =
      { s with availableRooms := rendered response, selectedRooms := [], hidden := some [] } := by
  unfold onSuccess rendered
  rcases h : response.rooms with _ | members
  · simp [updateSelectedRoomsInput]
  · by_cases hlen : 0 < (eachOrder (parseObject members)).length
    · simp only [Option.map_some', objectKeys, List.length_map, gt_iff_lt, hlen, if_true]
      rw [foldl_sections]
      simp [updateSelectedRoomsInput]
    · simp only [Option.map_some', objectKeys, List.length_map, gt_iff_lt, hlen, if_false]
      simp [updateSelectedRoomsInput]

/-! ## The parsed object and its enumeration order -/

theorem eachOrder_perm (obj : List (String × List Room)) : (eachOrder obj).Perm obj := by
  unfold eachOrder
  exact ((List.perm_insertionSort indexLe _).append_right _).trans
    (List.filter_append_perm _ obj)

theorem eachOrder_nil : eachOrder [] = [] := rfl

theorem eachOrder_of_no_index (obj : List (String × List Room))
    (h : ∀ e ∈ obj, arrayIndex e.1 = none) : eachOrder obj = obj := by
  have h1 : obj.filter (fun e => (arrayIndex e.1).isSome) = [] := by
    rw [List.filter_eq_nil_iff]
    intro e he
    simp [h e he]
  have h2 : obj.filter (fun e => !(arrayIndex e.1).isSome) = obj := by
    rw [List.filter_eq_self]
    intro e he
    simp [h e he]
  unfold eachOrder
  rw [h1, h2]
  rfl

theorem defineMember_keys (obj : List (String × List Room)) (member : String × List Room) :
    (defineMember obj member).map Prod.fst =
      if member.1 ∈ obj.map Prod.fst then obj.map Prod.fst else obj.map Prod.fst ++ [member.1] := by
  unfold defineMember
  by_cases hm : member.1 ∈ obj.map Prod.fst
  · have hany : obj.any (fun e => e.1 == member.1) = true := by
      obtain ⟨e, he, hk⟩ := List.mem_map.1 hm
      exact List.any_eq_true.2 ⟨e, he, by simp [hk]⟩
    rw [if_pos hany, if_pos hm, List.map_map]
    apply List.map_congr_left
    intro e _
    by_cases hk : e.1 = member.1 <;> simp [hk]
  · have hany : ¬ obj.any (fun e => e.1 == member.1) = true := by
      intro hc
      obtain ⟨e, he, hk⟩ := List.any_eq_true.1 hc
      exact hm (List.mem_map.2 ⟨e, he, by simpa using hk⟩)
    rw [if_neg hany, if_neg hm]
    simp

theorem foldl_defineMember_keys (members acc : List (String × List Room))
    (hacc : (acc.map Prod.fst).Nodup) :
    ((members.foldl defineMember acc).map Prod.fst).Nodup ∧
      ∀ k, k ∈ (members.foldl defineMember acc).map Prod.fst ↔
        k ∈ acc.map Prod.fst ∨ k ∈ members.map Prod.fst := by
  induction members generalizing acc with
  | nil => simpa using hacc
  | cons m members ih =>
    have hnd : ((defineMember acc m).map Prod.fst).Nodup := by
      rw [defineMember_keys]
      split
      · exact hacc
      · next hm => exact List.Nodup.append hacc (List.nodup_singleton _) (by simpa using hm)
    obtain ⟨h1, h2⟩ := ih (defineMember acc m) hnd
    refine ⟨h1, fun k => ?_⟩
    rw [List.foldl_cons, h2, defineMember_keys]
    by_cases hm : m.1 ∈ acc.map Prod.fst
    · rw [if_pos hm]
      simp only [List.map_cons, List.mem_cons]
      constructor
      · rintro (h | h)
        · exact Or.inl h
        · exact Or.inr (Or.inr h)
      · rintro (h | h | h)
        · exact Or.inl h
        · exact Or.inl (h ▸ hm)
        · exact Or.inr h
    · rw [if_neg hm]
      simp only [List.map_cons, List.mem_cons, List.mem_append, List.mem_singleton]
      tauto

theorem parseObject_keys (members : List (String × List Room)) :
    ((parseObject members).map Prod.fst).Nodup ∧
      ∀ k, k ∈ (parseObject members).map Prod.fst ↔ k ∈ members.map Prod.fst := by
  have h := foldl_defineMember_keys members [] (by simp)
  exact ⟨h.1, fun k => by simpa using h.2 k⟩

theorem foldl_defineMember_of_nodup (members acc : List (String × List Room))
    (h : ((acc ++ members).map Prod.fst).Nodup) :
    members.foldl defineMember acc = acc ++ members := by
  induction members generalizing acc with
  | nil => simp
  | cons m members ih =>
    have hm : m.1 ∉ acc.map Prod.fst := by
      simp only [List.map_append, List.map_cons] at h
      have h2 := List.nodup_middle.1 h
      rw [List.nodup_cons] at h2
      intro hc
      exact h2.1 (by simp [hc])
    have hdef : defineMember acc m = acc ++ [m] := by
      unfold defineMember
      have hany : ¬ acc.any (fun e => e.1 == m.1) = true := by
        intro hc
        obtain ⟨e, he, hk⟩ := List.any_eq_true.1 hc
        exact hm (List.mem_map.2 ⟨e, he, by simpa using hk⟩)
      rw [if_neg hany]
    rw [List.foldl_cons, hdef, ih (acc ++ [m]) (by simpa using h)]
    simp

theorem parseObject_of_nodup (members : List (String × List Room))
    (h : (members.map Prod.fst).Nodup) : parseObject members = members := by
  simpa [parseObject] using foldl_defineMember_of_nodup members [] (by simpa using h)

theorem parseObject_ne_nil (members : List (String × List Room)) (h : members ≠ []) :
    parseObject members ≠ [] := by
  intro hc
  cases members with
  | nil => exact h rfl
  | cons m members =>
    have hk := (parseObject_keys (m :: members)).2 m.1
    rw [hc] at hk
    simp at hk

theorem eachOrder_parseObject_length_pos (members : List (String × List Room))
    (h : members ≠ []) : 0 < (eachOrder (parseObject members)).length := by
  rw [(eachOrder_perm _).length_eq]
  exact List.length_pos.2 (parseObject_ne_nil members h)

/-! ## Selection lemmas -/

theorem toggle_mem (sel : List Nat) (r x : Nat) :
    x ∈ toggle sel r ↔ (if x = r then x ∉ sel else x ∈ sel) := by
  unfold toggle
  by_cases h : sel.contains r = true
  · rw [if_pos h]
    have hr : r ∈ sel := by simpa using h
    by_cases hx : x = r
    · subst hx; simp [hr]
    · simp [hx]
  · rw [if_neg h]
    have hr : r ∉ sel := by simpa using h
    by_cases hx : x = r
    · subst hx; simp [hr]
    · simp [hx]

theorem toggle_nodup (sel : List Nat) (r : Nat) (h : sel.Nodup) : (toggle sel r).Nodup := by
  unfold toggle
  by_cases hc : sel.contains r = true
  · rw [if_pos hc]; exact h.filter _
  · rw [if_neg hc]
    have hr : r ∉ sel := by simpa using hc
    exact List.Nodup.append h (List.nodup_singleton r) (by simpa using hr)

theorem foldl_toggle_mem (clicks : List Nat) (sel : List Nat) (x : Nat) :
    x ∈ clicks.foldl toggle sel ↔ (x ∈ sel ↔ Even (clicks.count x)) := by
  induction clicks generalizing sel with
  | nil => simp
  | cons r clicks ih =>
    rw [List.foldl_cons, ih, toggle_mem]
    by_cases hx : x = r
    · subst hx
      simp only [if_true, List.count_cons_self, Nat.even_add_one]
      tauto
    · have hrx : ¬ r = x := fun h => hx h.symm
      simp [hx, hrx, List.count_cons]

theorem clickButton_selectedRooms (i j : Nat) (s : Page) :
    (clickButton i j s).selectedRooms = s.selectedRooms ∨
      ∃ this, buttonAt s.availableRooms i j = some this ∧
        (clickButton i j s).selectedRooms = toggle s.selectedRooms this.roomId := by
  unfold clickButton
  rcases h : buttonAt s.availableRooms i j with _ | this
  · left; rfl
  · by_cases hc : "available-room-btn" ∈ this.classes
    · right; exact ⟨this, rfl, by simp [hc, updateSelectedRoomsInput]⟩
    · left; simp [hc]

theorem onDateChange_selectedRooms (s : Page) :
    (onDateChange s).selectedRooms = s.selectedRooms ∧ (onDateChange s).hidden = s.hidden ∧
      (onDateChange s).availableRooms = s.availableRooms := by
  by_cases hc : s.checkIn ≠ "" ∧ s.checkOut ≠ "" <;> simp [onDateChange, hc]

theorem step_nodup (s : Page) (e : Event) (h : s.selectedRooms.Nodup) :
    (step s e).selectedRooms.Nodup := by
  cases e with
  | changeCheckIn d =>
    simpa [step, changeCheckIn, (onDateChange_selectedRooms _).1, onCheckInChange] using h
  | changeCheckOut d =>
    simpa [step, changeCheckOut, (onDateChange_selectedRooms _).1] using h
  | ajaxSuccess response =>
    by_cases hp : s.pending = 0
    · simpa [step, hp] using h
    · simp [step, hp, onSuccess_eq]
  | ajaxError =>
    by_cases hp : s.pending = 0
    · simpa [step, hp] using h
    · simpa [step, hp, onError] using h
  | click i j =>
    rcases clickButton_selectedRooms i j s with h1 | ⟨this, _, h1⟩
    · simpa [step, h1] using h
    · simpa [step, h1] using toggle_nodup _ _ h

theorem run_nodup (events : List Event) (s : Page) (h : s.selectedRooms.Nodup) :
    (run events s).selectedRooms.Nodup := by
  induction events generalizing s with
  | nil => simpa [run] using h
  | cons e events ih => exact ih (step s e) (step_nodup s e h)

/-! ## Agreement of selection, hidden field and button styles -/

theorem set_split {α : Type} (l : List α) (j : Nat) (b : α) (h : l[j]? = some b) :
    ∃ l1 l2, l = l1 ++ b :: l2 ∧ ∀ b2, l.set j b2 = l1 ++ b2 :: l2 := by
  induction l generalizing j with
  | nil => simp at h
  | cons a l ih =>
    cases j with
    | zero =>
      simp at h
      subst h
      exact ⟨[], l, rfl, fun _ => rfl⟩
    | succ j =>
      simp at h
      obtain ⟨l1, l2, h1, h2⟩ := ih j h
      subst h1
      exact ⟨a :: l1, l2, rfl, fun b2 => by simp [h2]⟩

theorem allButtons_setButton (nodes : List Node) (i j : Nat) (b : Button)
    (h : buttonAt nodes i j = some b) :
    ∃ l1 l2, allButtons nodes = l1 ++ b :: l2 ∧
      ∀ b2, allButtons (setButton nodes i j b2) = l1 ++ b2 :: l2 := by
  induction nodes generalizing i with
  | nil => simp [buttonAt] at h
  | cons n rest ih =>
    cases i with
    | zero =>
      cases n with
      | notice t => simp [buttonAt] at h
      | roomSection heading bs =>
        have hc : bs[j]? = some b := by simpa [buttonAt] using h
        obtain ⟨l1, l2, h1, h2⟩ := set_split bs j b hc
        refine ⟨l1, l2 ++ allButtons rest, by simp [allButtons, h1], fun b2 => ?_⟩
        simp [setButton, allButtons, h2]
    | succ i =>
      have hb : buttonAt rest i j = some b := by simpa [buttonAt] using h
      obtain ⟨l1, l2, h1, h2⟩ := ih i hb
      have hset : ∀ b2, setButton (n :: rest) (i + 1) j b2 = n :: setButton rest i j b2 := by
        intro b2
        simp only [setButton, List.getElem?_cons_succ]
        split <;> simp
      cases n with
      | notice t =>
        exact ⟨l1, l2, by simp [allButtons, h1], fun b2 => by rw [hset]; simp [allButtons, h2]⟩
      | roomSection heading bs =>
        exact ⟨bs ++ l1, l2, by simp [allButtons, h1],
          fun b2 => by rw [hset]; simp [allButtons, h2]⟩

theorem clickButton_eq (i j : Nat) (s : Page) (this : Button)
    (hb : buttonAt s.availableRooms i j = some this)
    (hc : "available-room-btn" ∈ this.classes) :
    clickButton i j s =
      { s with
        selectedRooms := toggle s.selectedRooms this.roomId
        hidden := some ((toggle s.selectedRooms this.roomId).map JVal.num)
        availableRooms := setButton s.availableRooms i j (restyle s.selectedRooms this) } := by
  simp [clickButton, hb, hc, updateSelectedRoomsInput]

theorem restyle_roomId (sel : List Nat) (b : Button) : (restyle sel b).roomId = b.roomId := by
  unfold restyle
  split <;> rfl

theorem restyle_has_class (sel : List Nat) (b : Button)
    (h : "available-room-btn" ∈ b.classes) : "available-room-btn" ∈ (restyle sel b).classes := by
  unfold restyle addClass removeClass
  split <;> split <;> simp [h]

theorem restyle_success (sel : List Nat) (b : Button) :
    "btn-success" ∈ (restyle sel b).classes ↔ b.roomId ∉ sel := by
  unfold restyle addClass removeClass
  by_cases hc : sel.contains b.roomId = true
  · have hm : b.roomId ∈ sel := by simpa using hc
    rw [if_pos hc]
    split <;> simp [hm]
  · have hm : b.roomId ∉ sel := by simpa using hc
    rw [if_neg hc]
    split
    · next h2 => simpa [hm] using h2
    · simp [hm]

theorem allButtons_rendered (rooms : List (String × List Room)) :
    allButtons (rooms.map (fun e => Node.roomSection e.1 (e.2.map mkButton)))
      = (allUnits rooms).map mkButton := by
  induction rooms with
  | nil => rfl
  | cons e rooms ih => simp [allButtons, allUnits, ih]

theorem allButtons_rendered_response (response : Response) :
    allButtons (rendered response) = (renderedUnits response).map mkButton := by
  unfold rendered renderedUnits
  rcases h : response.rooms with _ | members
  · simp [allButtons, noRoomsNotice]
  · by_cases hlen : 0 < (eachOrder (parseObject members)).length
    · simp only [hlen, if_true]
      exact allButtons_rendered _
    · have hnil : eachOrder (parseObject members) = [] :=
        List.length_eq_zero.1 (Nat.eq_zero_of_not_pos hlen)
      simp [hnil, allButtons, noRoomsNotice, allUnits]

theorem consistent_of_eq {s t : Page} (h : Consistent s)
    (h1 : t.selectedRooms = s.selectedRooms) (h2 : t.hidden = s.hidden)
    (h3 : t.availableRooms = s.availableRooms) : Consistent t := by
  obtain ⟨a, b, c, d, e, f⟩ := h
  constructor
  · rw [h3]; exact a
  · rw [h3]; exact b
  · rw [h3, h1]; exact c
  · rw [h3, h1]; exact d
  · rw [h1]; exact e
  · rw [h1, h2]; exact f

theorem consistent_pageLoad (today reservation_id checkIn checkOut : String) :
    Consistent (pageLoad today reservation_id checkIn checkOut) := by
  constructor <;> simp [pageLoad, allButtons]

theorem consistent_onSuccess (response : Response) (s : Page) (h : distinctIds response) :
    Consistent (onSuccess response s) := by
  rw [onSuccess_eq]
  have hfresh : ∀ b ∈ allButtons (rendered response),
      b.classes = ["btn", "btn-primary", "available-room-btn"] := by
    intro b hb
    rw [allButtons_rendered_response] at hb
    obtain ⟨r, _, rfl⟩ := List.mem_map.1 hb
    rfl
  constructor
  · show ((allButtons (rendered response)).map Button.roomId).Nodup
    rw [allButtons_rendered_response, List.map_map]
    exact h
  · intro b hb
    rw [hfresh b hb]
    simp
  · intro b hb
    rw [hfresh b hb]
    simp
  · simp
  · simp
  · simp

theorem consistent_clickButton (i j : Nat) (s : Page) (h : Consistent s) :
    Consistent (clickButton i j s) := by
  rcases hb : buttonAt s.availableRooms i j with _ | this
  · simpa [clickButton, hb] using h
  · by_cases hc : "available-room-btn" ∈ this.classes
    · rw [clickButton_eq i j s this hb hc]
      obtain ⟨l1, l2, e1, e2⟩ := allButtons_setButton s.availableRooms i j this hb
      obtain ⟨a, b, c, d, e, f⟩ := h
      rw [e1] at a b c d
      have hne : ∀ k ∈ l1 ++ l2, k.roomId ≠ this.roomId := by
        intro k hk
        simp only [List.map_append, List.map_cons] at a
        have ha := List.nodup_middle.1 a
        rw [List.nodup_cons] at ha
        intro hkk
        apply ha.1
        rw [← hkk, ← List.map_append]
        exact List.mem_map_of_mem _ hk
      have other : ∀ k, k ∈ l1 ∨ k ∈ l2 →
          ("btn-success" ∈ k.classes ↔ k.roomId ∈ toggle s.selectedRooms this.roomId) := by
        intro k hk
        have h1 : k.roomId ≠ this.roomId := hne k (by simpa using hk)
        have h2 := c k (by rcases hk with hk | hk <;> simp [hk])
        rw [toggle_mem, if_neg h1]
        exact h2
      constructor
      · show ((allButtons (setButton s.availableRooms i j (restyle s.selectedRooms this))).map
          Button.roomId).Nodup
        simpa [e2, restyle_roomId] using a
      · show ∀ k ∈ allButtons (setButton s.availableRooms i j (restyle s.selectedRooms this)),
          "available-room-btn" ∈ k.classes
        intro k hk
        simp only [e2, List.mem_append, List.mem_cons] at hk
        rcases hk with hk | rfl | hk
        · exact b k (by simp [hk])
        · exact restyle_has_class _ _ hc
        · exact b k (by simp [hk])
      · show ∀ k ∈ allButtons (setButton s.availableRooms i j (restyle s.selectedRooms this)),
          ("btn-success" ∈ k.classes ↔ k.roomId ∈ toggle s.selectedRooms this.roomId)
        intro k hk
        simp only [e2, List.mem_append, List.mem_cons] at hk
        rcases hk with hk | rfl | hk
        · exact other k (Or.inl hk)
        · rw [restyle_success, restyle_roomId, toggle_mem]
          simp
        · exact other k (Or.inr hk)
      · show ∀ x ∈ toggle s.selectedRooms this.roomId,
          ∃ k ∈ allButtons (setButton s.availableRooms i j (restyle s.selectedRooms this)),
            k.roomId = x
        intro x hx
        simp only [e2]
        by_cases hxr : x = this.roomId
        · exact ⟨restyle s.selectedRooms this, by simp, by rw [restyle_roomId, hxr]⟩
        · rw [toggle_mem, if_neg hxr] at hx
          obtain ⟨k, hk, hkx⟩ := d x hx
          simp only [List.mem_append, List.mem_cons] at hk
          rcases hk with hk | rfl | hk
          · exact ⟨k, by simp [hk], hkx⟩
          · exact absurd hkx.symm hxr
          · exact ⟨k, by simp [hk], hkx⟩
      · exact toggle_nodup _ _ e
      · left; rfl
    · simpa [clickButton, hb, hc] using h

theorem consistent_step (s : Page) (e : Event) (hs : Consistent s) (he : regular e) :
    Consistent (step s e) := by
  cases e with
  | changeCheckIn d =>
    refine consistent_of_eq hs ?_ ?_ ?_ <;>
      simp [step, changeCheckIn, onDateChange_selectedRooms, onCheckInChange]
  | changeCheckOut d =>
    refine consistent_of_eq hs ?_ ?_ ?_ <;>
      simp [step, changeCheckOut, onDateChange_selectedRooms]
  | ajaxSuccess response =>
    by_cases hp : s.pending = 0
    · simpa [step, hp] using hs
    · simpa [step, hp] using consistent_onSuccess response _ he
  | ajaxError => exact absurd he (by simp [regular])
  | click i j => exact consistent_clickButton i j s hs

theorem consistent_run (events : List Event) (s : Page) (hs : Consistent s)
    (he : ∀ e ∈ events, regular e) : Consistent (run events s) := by
  induction events generalizing s with
  | nil => simpa [run] using hs
  | cons e events ih =>
    exact ih (step s e) (consistent_step s e hs (he e (by simp)))
      (fun e2 h2 => he e2 (by simp [h2]))

theorem visiblySelected_perm (s : Page) (h : Consistent s) :
    (visiblySelected s).Perm s.selectedRooms := by
  obtain ⟨a, b, c, d, e, _⟩ := h
  have hnd : (visiblySelected s).Nodup := by
    unfold visiblySelected
    exact List.Nodup.sublist (List.Sublist.map _ (List.filter_sublist _)) a
  rw [List.perm_ext_iff_of_nodup hnd e]
  intro x
  have key : ∀ k : Button, isSelected k = true ↔
      ("available-room-btn" ∈ k.classes ∧ "btn-success" ∈ k.classes) := by
    intro k
    simp [isSelected]
  simp only [visiblySelected, List.mem_map, List.mem_filter, key]
  constructor
  · rintro ⟨k, ⟨hk, _, hs⟩, rfl⟩
    exact (c k hk).1 hs
  · intro hx
    obtain ⟨k, hk, rfl⟩ := d x hx
    exact ⟨k, ⟨hk, b k hk, (c k hk).2 hx⟩, rfl⟩

/-! ## The claims about the room selection page -/

/-- C1: starting from the empty selection, after any sequence of toggles an id is selected
exactly when it was toggled an odd number of times; toggles of other ids do not count. -/
theorem C1_toggle_membership_parity (clicks : List Nat) (x : Nat) :
    x ∈ clicks.foldl toggle [] ↔ Odd (clicks.count x) := by
  rw [foldl_toggle_mem, ← Nat.not_even_iff_odd]
  simp

/-- C2, at the failing input: after a room was selected, a further availability request that
ends in the error callback removes every button while the hidden field still lists room 1. -/
theorem C2_error_leaves_stale_hidden_field :
    (run [Event.changeCheckOut "2026-01-06", Event.ajaxError] pageOneSelected).hidden
        = some [JVal.num 1] ∧
      visiblySelected (run [Event.changeCheckOut "2026-01-06", Event.ajaxError] pageOneSelected)
        = [] ∧
      allButtons (run [Event.changeCheckOut "2026-01-06", Event.ajaxError] pageOneSelected).availableRooms
        = [] := by
  decide

/-- C3 as stated fails: with room 1 selected, a change of check-in leaves the selection and
the hidden field as they were. -/
theorem C3_counterexample :
    (changeCheckIn "2026-01-02" pageOneSelected).selectedRooms = [1] ∧
      (changeCheckIn "2026-01-02" pageOneSelected).hidden = some [JVal.num 1] ∧
      (changeCheckIn "2026-01-02" pageOneSelected).selectedRooms ≠ [] := by
  decide

/-- C3, amended: handling a change of either date field leaves `selectedRooms` and the hidden
field untouched; the success callback of an availability request is what empties
`selectedRooms` and writes the empty array to the hidden field. -/
theorem C3_reset_on_success_only (d : String) (response : Response) (s : Page) :
    ((changeCheckIn d s).selectedRooms = s.selectedRooms ∧ (changeCheckIn d s).hidden = s.hidden) ∧
    ((changeCheckOut d s).selectedRooms = s.selectedRooms ∧ (changeCheckOut d s).hidden = s.hidden) ∧
    ((onSuccess response s).selectedRooms = [] ∧ (onSuccess response s).hidden = some []) := by
  refine ⟨⟨?_, ?_⟩, ⟨?_, ?_⟩, ?_⟩
  · simp [changeCheckIn, (onDateChange_selectedRooms _).1, onCheckInChange]
  · simp [changeCheckIn, (onDateChange_selectedRooms _).2.1, onCheckInChange]
  · simp [changeCheckOut, (onDateChange_selectedRooms _).1]
  · simp [changeCheckOut, (onDateChange_selectedRooms _).2.1]
  · simp [onSuccess_eq]

/-- C4 as stated fails: after room 2 and then room 1 were clicked, the hidden field holds the
numbers 2, 1 while the submit handler sends the strings "1", "2". -/
theorem C4_counterexample :
    pageTwoSelected.hidden = some [JVal.num 2, JVal.num 1] ∧
      submitSelectedRooms pageTwoSelected = [JVal.str "1", JVal.str "2"] ∧
      some (submitSelectedRooms pageTwoSelected) ≠ pageTwoSelected.hidden := by
  decide

/-- C4, amended: in every state reached from page load by date changes, success responses
with pairwise distinct unit ids and room clicks, the array sent by the submit handler is the
list of the `data-room-id` texts of the visibly selected buttons in document order; these
buttons carry exactly the ids of `selectedRooms`, each once, and the hidden field, once
written, holds `selectedRooms` as numbers. -/
theorem C4_submit_payload_names_the_selection (today reservation_id checkIn checkOut : String)
    (events : List Event) (hreg : ∀ e ∈ events, regular e) :
    submitSelectedRooms (run events (pageLoad today reservation_id checkIn checkOut))
        = (visiblySelected (run events (pageLoad today reservation_id checkIn checkOut))).map
            (fun n => JVal.str (toString n)) ∧
      (visiblySelected (run events (pageLoad today reservation_id checkIn checkOut))).Perm
        (run events (pageLoad today reservation_id checkIn checkOut)).selectedRooms ∧
      ((run events (pageLoad today reservation_id checkIn checkOut)).hidden
          = some ((run events (pageLoad today reservation_id checkIn checkOut)).selectedRooms.map
              JVal.num) ∨
        ((run events (pageLoad today reservation_id checkIn checkOut)).hidden = none ∧
          (run events (pageLoad today reservation_id checkIn checkOut)).selectedRooms = [])) := by
  have hcons := consistent_run events _
    (consistent_pageLoad today reservation_id checkIn checkOut) hreg
  refine ⟨?_, visiblySelected_perm _ hcons, hcons.hidden_eq⟩
  simp [submitSelectedRooms, visiblySelected, List.map_map, Function.comp_def]

/-- C4, amended, at the page with rooms 2 and 1 clicked in that order. -/
theorem C4_submit_payload_names_the_selection_witness :
    submitSelectedRooms pageTwoSelected
        = (visiblySelected pageTwoSelected).map (fun n => JVal.str (toString n)) ∧
      (visiblySelected pageTwoSelected).Perm pageTwoSelected.selectedRooms ∧
      (pageTwoSelected.hidden = some (pageTwoSelected.selectedRooms.map JVal.num) ∨
        (pageTwoSelected.hidden = none ∧ pageTwoSelected.selectedRooms = [])) :=
  C4_submit_payload_names_the_selection "2025-12-31" "7" "" ""
    [Event.changeCheckIn "2026-01-01", Event.changeCheckOut "2026-01-05",
     Event.ajaxSuccess twoRooms, Event.click 0 1, Event.click 0 0] (by decide)

/-- C5 as stated fails: for the response whose unit types are "2" and then "1", the section
of "1" is rendered before the section of "2". -/
theorem C5_counterexample :
    twoThenOne.rooms
        = some [("2", [⟨2, "201", "2", "sea"⟩]), ("1", [⟨1, "101", "1", "garden"⟩])] ∧
      (onSuccess twoThenOne pageOneSelected).availableRooms
        = [Node.roomSection "1" [mkButton ⟨1, "101", "1", "garden"⟩],
           Node.roomSection "2" [mkButton ⟨2, "201", "2", "sea"⟩]] ∧
      (onSuccess twoThenOne pageOneSelected).availableRooms
        ≠ [Node.roomSection "2" [mkButton ⟨2, "201", "2", "sea"⟩],
           Node.roomSection "1" [mkButton ⟨1, "101", "1", "garden"⟩]] := by
  decide

/-- C5, amended: for a success response whose rooms map is non-empty, the content of the
rooms area becomes one section per property of the parsed rooms object, in the order in which
`$.each` visits them (array-index unit types first, ascending, then the others in creation
order), each holding one button per unit in list order, the button carrying the unit's id.
The parsed object has each unit type of the response exactly once, the visit only reorders
its properties, and when no unit type is an array index and none is repeated the sections
are in the order of the response. -/
theorem C5_sections_in_enumeration_order (response : Response)
    (rooms : List (String × List Room)) (s : Page)
    (hrooms : response.rooms = some rooms) (hne : rooms ≠ []) :
    (onSuccess response s).availableRooms
        = (eachOrder (parseObject rooms)).map
            (fun e => Node.roomSection e.1 (e.2.map mkButton)) ∧
      (eachOrder (parseObject rooms)).Perm (parseObject rooms) ∧
      ((parseObject rooms).map Prod.fst).Nodup ∧
      (∀ k, k ∈ (parseObject rooms).map Prod.fst ↔ k ∈ rooms.map Prod.fst) ∧
      ((∀ e ∈ rooms, arrayIndex e.1 = none) → (rooms.map Prod.fst).Nodup →
        (onSuccess response s).availableRooms
          = rooms.map (fun e => Node.roomSection e.1 (e.2.map mkButton))) ∧
      ∀ room : Room, (mkButton room).roomId = room.id := by
  have hmain : (onSuccess response s).availableRooms
      = (eachOrder (parseObject rooms)).map
          (fun e => Node.roomSection e.1 (e.2.map mkButton)) := by
    simp [onSuccess_eq, rendered, hrooms, eachOrder_parseObject_length_pos rooms hne]
  refine ⟨hmain, eachOrder_perm _, (parseObject_keys rooms).1, (parseObject_keys rooms).2,
    ?_, fun _ => rfl⟩
  intro hidx hnd
  rw [hmain, parseObject_of_nodup rooms hnd, eachOrder_of_no_index rooms hidx]

/-- C5, amended, at the specification's example: Suite then Standard, one button each. -/
theorem C5_sections_in_enumeration_order_witness :
    (onSuccess suiteStandard pageOneSelected).availableRooms
        = [Node.roomSection "Suite" [mkButton ⟨1, "101", "1", "sea"⟩],
           Node.roomSection "Standard" [mkButton ⟨2, "202", "2", "garden"⟩]] :=
  (C5_sections_in_enumeration_order suiteStandard _ pageOneSelected rfl (by decide)).2.2.2.2.1
    (by decide) (by decide)

/-- C6 as stated fails: a response whose only unit type has an empty unit list renders one
empty section and no placeholder. -/
theorem C6_counterexample :
    (∀ e ∈ [("Suite", ([] : List Room))], e.2 = []) ∧
      emptySuite.rooms = some [("Suite", [])] ∧
      (onSuccess emptySuite pageOneSelected).availableRooms = [Node.roomSection "Suite" []] ∧
      (onSuccess emptySuite pageOneSelected).availableRooms ≠ [noRoomsNotice] := by
  decide

/-- C6, amended: for a success response whose rooms are absent or an empty object, whatever
was rendered before, the content of the rooms area is exactly the one placeholder, with no
button in it. -/
theorem C6_placeholder_when_no_unit_type (response : Response) (s : Page)
    (h : response.rooms = none ∨ response.rooms = some []) :
    (onSuccess response s).availableRooms = [noRoomsNotice] ∧
      allButtons (onSuccess response s).availableRooms = [] := by
  rcases h with h | h <;>
    simp [onSuccess_eq, rendered, h, allButtons, noRoomsNotice, parseObject, eachOrder_nil]

/-- C6, amended, on a page that showed a selected room before the response. -/
theorem C6_placeholder_when_no_unit_type_witness :
    (onSuccess { rooms := some [] } pageOneSelected).availableRooms = [noRoomsNotice] ∧
      allButtons (onSuccess { rooms := some [] } pageOneSelected).availableRooms = [] :=
  C6_placeholder_when_no_unit_type { rooms := some [] } pageOneSelected (Or.inr rfl)

/-- C7: a change of check-in to D sets the minimum of check-out to D, empties check-out, and
leaves the check-in value and the check-in minimum as they are. -/
theorem C7_check_in_change (D : String) (s : Page) :
    (changeCheckIn D s).checkOutMin = D ∧ (changeCheckIn D s).checkOut = "" ∧
      (changeCheckIn D s).checkIn = D ∧ (changeCheckIn D s).checkInMin = s.checkInMin := by
  simp [changeCheckIn, onDateChange, onCheckInChange]

/-- C9 as stated fails: with both dates chosen, a change of check-in issues no request. -/
theorem C9_counterexample :
    pageTwoSelected.checkIn ≠ "" ∧ pageTwoSelected.checkOut ≠ "" ∧
      (changeCheckIn "2026-01-02" pageTwoSelected).requests = pageTwoSelected.requests ∧
      (changeCheckIn "2026-01-02" pageTwoSelected).pending = pageTwoSelected.pending := by
  decide

/-- C9, amended: the delegated handler issues a request only when both values are non-empty
when it runs; a change of check-out issues exactly one new request, for the current check-in
and the new check-out, when both are non-empty and none otherwise; a change of check-in never
issues a request, its own handler having emptied check-out first. -/
theorem C9_requests_issued (d : String) (s : Page) :
    ((onDateChange s).requests ≠ s.requests → s.checkIn ≠ "" ∧ s.checkOut ≠ "") ∧
    ((changeCheckOut d s).requests =
      if s.checkIn ≠ "" ∧ d ≠ "" then
        s.requests ++ [{ check_in := s.checkIn, check_out := d, reservation_id := s.reservation_id }]
      else s.requests) ∧
    (changeCheckIn d s).requests = s.requests := by
  refine ⟨?_, ?_, ?_⟩
  · intro h
    by_contra hc
    exact h (by simp [onDateChange, hc])
  · by_cases hc : s.checkIn ≠ "" ∧ d ≠ "" <;> simp [changeCheckOut, onDateChange, hc]
  · simp [changeCheckIn, onDateChange, onCheckInChange]

/-- C9, amended, at a page with check-in chosen: choosing check-out issues the request. -/
theorem C9_requests_issued_witness :
    (changeCheckOut "2026-01-09" pageTwoSelected).requests =
      pageTwoSelected.requests ++
        [{ check_in := "2026-01-01", check_out := "2026-01-09", reservation_id := "7" }] := by
  have h := (C9_requests_issued "2026-01-09" pageTwoSelected).2.1
  rw [h]
  decide

/-- C10: in every state reached from page load, `selectedRooms` has no repeated id; a click
that removes an id leaves the other ids in their order, and a click that adds an id puts it
last. -/
theorem C10_selection_nodup_in_insertion_order (today reservation_id checkIn checkOut : String)
    (events : List Event) (i j : Nat) :
    (run events (pageLoad today reservation_id checkIn checkOut)).selectedRooms.Nodup ∧
    (∀ x, x ∈ (run events (pageLoad today reservation_id checkIn checkOut)).selectedRooms →
      x ∉ (clickButton i j (run events (pageLoad today reservation_id checkIn checkOut))).selectedRooms →
      (clickButton i j (run events (pageLoad today reservation_id checkIn checkOut))).selectedRooms
        = (run events (pageLoad today reservation_id checkIn checkOut)).selectedRooms.erase x) ∧
    (∀ x, x ∉ (run events (pageLoad today reservation_id checkIn checkOut)).selectedRooms →
      x ∈ (clickButton i j (run events (pageLoad today reservation_id checkIn checkOut))).selectedRooms →
      (clickButton i j (run events (pageLoad today reservation_id checkIn checkOut))).selectedRooms
        = (run events (pageLoad today reservation_id checkIn checkOut)).selectedRooms ++ [x]) := by
  have hnd : (run events (pageLoad today reservation_id checkIn checkOut)).selectedRooms.Nodup :=
    run_nodup events _ (by simp [pageLoad])
  generalize run events (pageLoad today reservation_id checkIn checkOut) = s at hnd ⊢
  refine ⟨hnd, ?_, ?_⟩
  · intro x hx hx2
    rcases clickButton_selectedRooms i j s with h1 | ⟨this, _, h1⟩
    · rw [h1] at hx2; exact absurd hx hx2
    · rw [h1] at hx2 ⊢
      rw [toggle_mem] at hx2
      by_cases hxr : x = this.roomId
      · subst hxr
        have hc : s.selectedRooms.contains this.roomId = true := by simpa using hx
        rw [toggle, if_pos hc, hnd.erase_eq_filter]
      · simp [hxr] at hx2; exact absurd hx hx2
  · intro x hx hx2
    rcases clickButton_selectedRooms i j s with h1 | ⟨this, _, h1⟩
    · rw [h1] at hx2; exact absurd hx2 hx
    · rw [h1] at hx2 ⊢
      rw [toggle_mem] at hx2
      by_cases hxr : x = this.roomId
      · subst hxr
        have hc : ¬ s.selectedRooms.contains this.roomId = true := by simpa using hx
        rw [toggle, if_neg hc]
      · simp [hxr] at hx2; exact absurd hx2 hx

/-- C10 at a page with rooms 2 and 1 selected in that order: clicking room 2 leaves room 1. -/
theorem C10_selection_nodup_in_insertion_order_witness :
    pageTwoSelected.selectedRooms.Nodup ∧
      (clickButton 0 1 pageTwoSelected).selectedRooms = pageTwoSelected.selectedRooms.erase 2 :=
  ⟨(C10_selection_nodup_in_insertion_order "2025-12-31" "7" "" ""
      [Event.changeCheckIn "2026-01-01", Event.changeCheckOut "2026-01-05",
       Event.ajaxSuccess twoRooms, Event.click 0 1, Event.click 0 0] 0 1).1,
   (C10_selection_nodup_in_insertion_order "2025-12-31" "7" "" ""
      [Event.changeCheckIn "2026-01-01", Event.changeCheckOut "2026-01-05",
       Event.ajaxSuccess twoRooms, Event.click 0 1, Event.click 0 0] 0 1).2.1 2
      (by decide) (by decide)⟩

end RoomSelection

namespace ToggleAvailability

/-- C8: when the toggle request fails (the chain rejects, or the body's status is not
`"success"`, whatever `is_available` says), the cell is not rewritten: classes, text, id and
click handler of the button are what they were before the click. -/
theorem C8_failed_toggle_changes_nothing (this : ToggleButton) (result : FetchResult)
    (h : failed result) :
    onClick this result = this ∧
      (onClick this result).label = this.label ∧
      (onClick this result).classes = this.classes ∧
      (onClick this result).listener = this.listener := by
  have key : onClick this result = this := by
    cases result with
    | rejected => rfl
    | json status is_available =>
      have hs : status ≠ "success" := h
      simp [onClick, hs]
  simp [key]

/-- C8 at a server rejection that nevertheless carries `is_available: true`. -/
theorem C8_failed_toggle_changes_nothing_witness :
    onClick ⟨["toggle-availability", "btn", "btn-primary"], "إتاحة", "12", true⟩
        (FetchResult.json "error" (some true))
      = ⟨["toggle-availability", "btn", "btn-primary"], "إتاحة", "12", true⟩ :=
  (C8_failed_toggle_changes_nothing _ (FetchResult.json "error" (some true)) (by simp [failed])).1

end ToggleAvailability
